import Mathlib

/-
Verification development for the patent-application dashboard pipeline
(src/dashboard.py).  The data-transformation core is embedded shallowly:
pandas string cells become lists of characters, data frames become lists
of record structures, and each pipeline function is translated into a
Lean function with the same structure as the Python source.
-/

/-- Strings are modelled as lists of characters, so that the splitting and
trimming functions of the normalizer can be defined by recursion. -/
abbrev Str := List Char

/-- Whitespace trimming, the model of Python str.strip(): drop whitespace
characters from both ends. -/
def trim (s : Str) : Str :=
  ((s.dropWhile Char.isWhitespace).reverse.dropWhile Char.isWhitespace).reverse

/-- Generic splitter: walk the character list, and cut at every character
for which the predicate holds (the predicate also sees the remaining tail,
which lets it express the lookahead of the FI split).  The separator
character is consumed.  An empty input yields one empty piece, matching
Python re.split / str.split behaviour. -/
def splitAux (p : Char → List Char → Bool) : List Char → List Char → List (List Char)
  | [], acc => [acc.reverse]
  | c :: rest, acc =>
    if p c rest then acc.reverse :: splitAux p rest []
    else splitAux p rest (c :: acc)

/-- Unconditional comma split, the model of the applicant split
df[applicant].str.split(",") at dashboard.py line 50. -/
def splitComma (s : Str) : List Str :=
  splitAux (fun c _ => c == ',') s []

/-- Digit-protected comma split, the model of the regex split on
",(?!\d)" at dashboard.py line 53: a comma is a split point exactly when
the next character is not a digit (a comma at the end of the string is a
split point, as with the regex lookahead). -/
def splitCommaNoDigit (s : Str) : List Str :=
  splitAux (fun c rest => c == ',' && !(rest.headD 'A').isDigit) s []

/-- FI-list construction at dashboard.py lines 53-54: split with the
digit-protected rule, then keep only the pieces that are non-empty after
stripping (the pieces themselves are kept unstripped, as in the source;
stripping happens later, at expansion). -/
def fiSplit (s : Str) : List Str :=
  (splitCommaNoDigit s).filter (fun item => !(trim item).isEmpty)

/-- Marker stripping at dashboard.py line 49: remove every occurrence of
the two decorative marker characters from the applicant string. -/
def stripMarkers (s : Str) : Str :=
  s.filter (fun c => !(c == '▲' || c == '▼'))

/-- Application date.  Only the year component is consumed by the
pipeline (pd.to_datetime(...).dt.year), so the date is modelled as a
value carrying its year. -/
structure ADate where
  year : Int
deriving DecidableEq, Repr

/-- One input row, before preprocessing.  The optional FI, problem and
solution columns model cells that may be NaN. -/
structure RawRecord where
  appDate : ADate
  applicant : Str
  fi : Option Str
  problem : Option Str
  solution : Option Str
deriving DecidableEq, Repr

/-- One row after preprocess_data: the original columns (with applicant
overwritten by its marker-stripped value, as the source does in place)
plus the derived year, applicants_list and fi_list columns. -/
structure NormRecord where
  appDate : ADate
  applicant : Str
  fi : Option Str
  problem : Option Str
  solution : Option Str
  year : Int
  applicants_list : List Str
  fi_list : List Str
deriving DecidableEq, Repr

/-- Row-wise model of preprocess_data (dashboard.py lines 42-56):
derive the year from the date, overwrite the applicant column with its
marker-stripped value, split it into applicants_list, and build fi_list
from the FI column (NaN treated as empty string via fillna) with the
digit-protected split followed by the non-empty filter. -/
def preprocessRow (r : RawRecord) : NormRecord :=
  let cleaned := stripMarkers r.applicant
  { appDate := r.appDate
    applicant := cleaned
    fi := r.fi
    problem := r.problem
    solution := r.solution
    year := r.appDate.year
    applicants_list := splitComma cleaned
    fi_list := fiSplit (r.fi.getD []) }

/-- Model of preprocess_data over a whole batch. -/
def preprocess_data (df : List RawRecord) : List NormRecord :=
  df.map preprocessRow

/-- Applicant expansion of one record (dashboard.py lines 65-70): one
output row per applicants_list element, with the applicant column
replaced by the stripped element and all other columns copied. -/
def expandApplicantsRow (row : NormRecord) : List NormRecord :=
  row.applicants_list.map (fun a => { row with applicant := trim a })

/-- FI expansion of one record (dashboard.py lines 74-79): one output row
per fi_list element, with the FI column replaced by the stripped element. -/
def expandFiRow (row : NormRecord) : List NormRecord :=
  row.fi_list.map (fun f => { row with fi := some (trim f) })

/-- Joint expansion of one record (dashboard.py lines 83-90): one output
row per (applicant, FI) pair, the full cartesian product of the two lists. -/
def expandJointRow (row : NormRecord) : List NormRecord :=
  row.applicants_list.flatMap (fun a =>
    row.fi_list.map (fun f => { row with applicant := trim a, fi := some (trim f) }))

/-- Model of expand_data (dashboard.py lines 61-96): the three exploded
tables, built by expanding every record and concatenating the rows. -/
def expand_data (df : List NormRecord) :
    List NormRecord × List NormRecord × List NormRecord :=
  (df.flatMap expandApplicantsRow, df.flatMap expandFiRow, df.flatMap expandJointRow)

/-- Increment the count of one key in an association list of counts,
appending the key with count 1 when it is new.  Building block of the
frequency counting below. -/
def bumpKey {K : Type} [DecidableEq K] : List (K × Nat) → K → List (K × Nat)
  | [], k => [(k, 1)]
  | (k0, n) :: rest, k =>
    if k0 = k then (k0, n + 1) :: rest else (k0, n) :: bumpKey rest k

/-- Count the occurrences of each key, keys listed in first-encountered
order.  This is the counting core shared by the models of value_counts
and of groupby(...).size(). -/
def countKeys {K : Type} [DecidableEq K] (keys : List K) : List (K × Nat) :=
  keys.foldl bumpKey []

/-- Model of pandas value_counts over a column: count each key and sort
by count, descending.  Pandas leaves the tie order unspecified; the model
uses a stable sort, which no verified property depends on. -/
def value_counts {K : Type} [DecidableEq K] (keys : List K) : List (K × Nat) :=
  List.insertionSort (fun a b => b.2 ≤ a.2) (countKeys keys)

/-- Model of groupby(keys).size().reset_index(): one row per distinct key
with its count.  Pandas sorts the group keys; the order is irrelevant to
every verified property (the group tables are only filtered by
membership downstream), so the model keeps first-encountered order. -/
def groupCount {K : Type} [DecidableEq K] (keys : List K) : List (K × Nat) :=
  countKeys keys

/-- First ten rows of a frequency table (head(10) at dashboard.py
lines 124-125). -/
def topHead {K : Type} (counts : List (K × Nat)) : List (K × Nat) :=
  counts.take 10

/-- Residual count of the entities beyond the first ten (dashboard.py
lines 128 and 134): the sum of the counts after position 10 when the
table is longer than 10 rows, else 0. -/
def othersSum {K : Type} (counts : List (K × Nat)) : Nat :=
  if counts.length > 10 then ((counts.drop 10).map (fun p => p.2)).sum else 0

/-- Share table with the synthetic residual row (dashboard.py
lines 129-132 and 135-138): a copy of the top-10 table, with an
(othersKey, residual) row appended exactly when the residual is
positive. -/
def withOthers {K : Type} (othersKey : K) (counts : List (K × Nat)) : List (K × Nat) :=
  if othersSum counts > 0 then topHead counts ++ [(othersKey, othersSum counts)]
  else topHead counts

/-- Key of the synthetic residual row. -/
def othersName : Str := "others".toList

/-- Year-by-applicant grouping (dashboard.py line 115). -/
def year_applicant_group (df_applicants : List NormRecord) : List ((Int × Str) × Nat) :=
  groupCount (df_applicants.map (fun r => (r.year, r.applicant)))

/-- Year-by-FI grouping (dashboard.py line 118).  Rows whose FI cell is
NaN are dropped by groupby, modelled by filterMap over the option. -/
def year_fi_group (df_fi : List NormRecord) : List ((Int × Str) × Nat) :=
  groupCount (df_fi.filterMap (fun r => r.fi.map (fun f => (r.year, f))))

/-- Applicant-by-FI grouping (dashboard.py line 121). -/
def applicant_fi_group (df_applicants_fi : List NormRecord) : List ((Str × Str) × Nat) :=
  groupCount (df_applicants_fi.filterMap (fun r => r.fi.map (fun f => (r.applicant, f))))

/-- Output bundle of aggregate_data (dashboard.py lines 154-167).  The
source names top_applicant_ratio and top_fi_ratio appear here as
top_applicant_with_others and top_fi_with_others. -/
structure AggResult where
  year_counts : List (Int × Nat)
  applicant_counts : List (Str × Nat)
  fi_counts : List (Str × Nat)
  top_applicants : List (Str × Nat)
  top_fi : List (Str × Nat)
  top_applicant_with_others : List (Str × Nat)
  top_fi_with_others : List (Str × Nat)
  year_top_applicant : List ((Int × Str) × Nat)
  year_top_fi : List ((Int × Str) × Nat)
  top_applicant_top_fi : List ((Str × Str) × Nat)
  top10_applicants : List Str
  top10_fi : List Str
deriving DecidableEq, Repr

/-- Model of aggregate_data (dashboard.py lines 98-167): frequency counts
by applicant, FI and year (value_counts drops NaN cells, modelled by
filterMap); the year table re-sorted ascending by year; two-key group
counts; top-10 extraction with the residual row; and the top-10
membership filters for the year-by-entity and applicant-by-FI tables. -/
def aggregate_data (df df_applicants df_fi df_applicants_fi : List NormRecord) : AggResult :=
  let applicant_counts := value_counts (df_applicants.map (fun r => r.applicant))
  let fi_counts := value_counts (df_fi.filterMap (fun r => r.fi))
  let year_counts :=
    List.insertionSort (fun a b => a.1 ≤ b.1) (value_counts (df.map (fun r => r.year)))
  let top_applicants := topHead applicant_counts
  let top_fi := topHead fi_counts
  let top10_applicants := top_applicants.map (fun p => p.1)
  let top10_fi := top_fi.map (fun p => p.1)
  { year_counts := year_counts
    applicant_counts := applicant_counts
    fi_counts := fi_counts
    top_applicants := top_applicants
    top_fi := top_fi
    top_applicant_with_others := withOthers othersName applicant_counts
    top_fi_with_others := withOthers othersName fi_counts
    year_top_applicant :=
      (year_applicant_group df_applicants).filter
        (fun g => decide (g.1.2 ∈ top10_applicants))
    year_top_fi :=
      (year_fi_group df_fi).filter (fun g => decide (g.1.2 ∈ top10_fi))
    top_applicant_top_fi :=
      (applicant_fi_group df_applicants_fi).filter
        (fun g => decide (g.1.1 ∈ top10_applicants) && decide (g.1.2 ∈ top10_fi))
    top10_applicants := top10_applicants
    top10_fi := top10_fi }

/-- Key pair of a cross-table triple (row key, column key, count). -/
def keyPair {R C : Type} (t : R × C × Nat) : R × C :=
  (t.1, t.2.1)

/-- Direct cross-table lookup, the specification-side reading of a cell:
the count of the first triple with the given keys, 0 when no triple has
them. -/
def crossLookup {R C : Type} [DecidableEq R] [DecidableEq C]
    (data : List (R × C × Nat)) (r : R) (c : C) : Nat :=
  match data.find? (fun t => decide (t.1 = r) && decide (t.2.1 = c)) with
  | some t => t.2.2
  | none => 0

/-- One cell of the pivot table (dashboard.py lines 175-180): collect the
values whose triple carries the given keys and aggregate; pivot_table
defaults to the mean, with fill_value 0 for an empty cell.  The mean is
taken with truncating division, which coincides with the exact mean on
the at-most-one-entry tables the verified property is about. -/
def pivotCell {R C : Type} [DecidableEq R] [DecidableEq C]
    (data : List (R × C × Nat)) (r : R) (c : C) : Nat :=
  let vs := (data.filter (fun t => decide (t.1 = r) && decide (t.2.1 = c))).map
    (fun t => t.2.2)
  if vs.isEmpty then 0 else vs.sum / vs.length

/-- Model of create_heatmap_data (dashboard.py lines 172-185): build the
pivot table over the keys that occur in the data, then reindex onto the
caller-supplied row and column orderings with fill_value 0, so a
requested key absent from the pivot index yields a zero cell.  Pandas
sorts the pivot index; that internal order is discarded by the reindex,
so the model leaves the deduplicated key lists unsorted. -/
def create_heatmap_data {R C : Type} [DecidableEq R] [DecidableEq C]
    (data : List (R × C × Nat)) (row_items : List R) (col_items : List C) :
    List (List Nat) :=
  let pivotIndex := (data.map (fun t => t.1)).dedup
  let pivotCols := (data.map (fun t => t.2.1)).dedup
  row_items.map (fun r =>
    col_items.map (fun c =>
      if r ∈ pivotIndex ∧ c ∈ pivotCols then pivotCell data r c else 0))

/-- Input frame of the secondary analyzer.  The two flags model whether
the problem-category and solution-category columns exist in the frame
(dashboard.py line 378 tests column presence, independently of the cell
values). -/
structure PsFrame where
  hasProblemCol : Bool
  hasSolutionCol : Bool
  rows : List NormRecord
deriving DecidableEq, Repr

/-- Output bundle of analyze_problem_solution_data (dashboard.py
lines 455-469).  The two crosstab results are modelled as sparse pair
counts (the dense zero cells of pd.crosstab carry no information). -/
structure PsResult where
  problem_counts : List (Str × Nat)
  solution_counts : List (Str × Nat)
  cross_tab : List ((Str × Str) × Nat)
  year_problem : Option (List ((Int × Str) × Nat))
  year_solution : Option (List ((Int × Str) × Nat))
  applicant_problem_cross : Option (List ((Str × Str) × Nat))
  applicant_solution_cross : Option (List ((Str × Str) × Nat))
  applicant_problem_counts : Option (List ((Str × Str) × Nat))
  applicant_solution_counts : Option (List ((Str × Str) × Nat))
  top_applicants_for_analysis : Option (List Str)
  num_problems : Nat
  num_solutions : Nat
  total_records : Nat
deriving DecidableEq, Repr

/-- Rows in which both category cells are populated (the dropna on the
two category columns at dashboard.py lines 383 and 422; the applicant
column of the exploded frame is never NaN in the pipeline, so the
three-column dropna of line 422 reduces to the same filter). -/
def ps_filtered (rows : List NormRecord) : List NormRecord :=
  rows.filter (fun r => r.problem.isSome && r.solution.isSome)

/-- Applicant part of the secondary analyzer (dashboard.py
lines 409-449): when an applicant-exploded frame is supplied, group by
(applicant, category), pick the 15 highest-volume applicants, restrict
to them and cross-tabulate; absent or empty inputs leave the fields
absent. -/
def psApplicantPart (df_applicants : Option (List NormRecord)) :
    Option (List ((Str × Str) × Nat)) × Option (List ((Str × Str) × Nat)) ×
    Option (List ((Str × Str) × Nat)) × Option (List ((Str × Str) × Nat)) ×
    Option (List Str) :=
  match df_applicants with
  | none => (none, none, none, none, none)
  | some dfa =>
    let df_app_filtered := ps_filtered dfa
    if df_app_filtered.length = 0 then (none, none, none, none, none)
    else
      let applicant_problem_counts :=
        groupCount (df_app_filtered.filterMap
          (fun r => r.problem.map (fun p => (r.applicant, p))))
      let applicant_solution_counts :=
        groupCount (df_app_filtered.filterMap
          (fun r => r.solution.map (fun s => (r.applicant, s))))
      let top_applicants : List Str :=
        ((value_counts (df_app_filtered.map (fun r => r.applicant))).take 15).map
          (fun p => p.1)
      let df_top := df_app_filtered.filter (fun r => decide (r.applicant ∈ top_applicants))
      if df_top.length = 0 then
        (none, none, some applicant_problem_counts, some applicant_solution_counts,
         some top_applicants)
      else
        let applicant_problem_cross :=
          countKeys (df_top.filterMap (fun r => r.problem.map (fun p => (r.applicant, p))))
        let applicant_solution_cross :=
          countKeys (df_top.filterMap (fun r => r.solution.map (fun s => (r.applicant, s))))
        (some applicant_problem_cross, some applicant_solution_cross,
         some applicant_problem_counts, some applicant_solution_counts,
         some top_applicants)

/-- Model of analyze_problem_solution_data (dashboard.py lines 375-473):
absent result when either category column is missing (line 378); filter
to the rows with both categories populated; absent result, with a
warning, when no row remains (lines 386-388); otherwise the frequency
tables, the cross-tabulation, the year groupings (the year column always
exists after preprocessing) and the applicant part. -/
def analyze_problem_solution_data (df : PsFrame)
    (df_applicants : Option (List NormRecord)) : Option PsResult :=
  if !(df.hasProblemCol && df.hasSolutionCol) then none
  else
    let df_filtered := ps_filtered df.rows
    if df_filtered.length = 0 then none
    else
      let problem_counts := value_counts (df_filtered.filterMap (fun r => r.problem))
      let solution_counts := value_counts (df_filtered.filterMap (fun r => r.solution))
      let cross_tab :=
        countKeys (df_filtered.filterMap
          (fun r => match r.problem, r.solution with
            | some p, some s => some (p, s)
            | _, _ => none))
      let year_problem :=
        some (groupCount (df_filtered.filterMap
          (fun r => r.problem.map (fun p => (r.year, p)))))
      let year_solution :=
        some (groupCount (df_filtered.filterMap
          (fun r => r.solution.map (fun s => (r.year, s)))))
      let ap := psApplicantPart df_applicants
      some
        { problem_counts := problem_counts
          solution_counts := solution_counts
          cross_tab := cross_tab
          year_problem := year_problem
          year_solution := year_solution
          applicant_problem_cross := ap.1
          applicant_solution_cross := ap.2.1
          applicant_problem_counts := ap.2.2.1
          applicant_solution_counts := ap.2.2.2.1
          top_applicants_for_analysis := ap.2.2.2.2
          num_problems := problem_counts.length
          num_solutions := solution_counts.length
          total_records := df_filtered.length }

/-- Whether the warning of dashboard.py line 387 is emitted: both
category columns exist but no row has both populated. -/
def psWarningEmitted (df : PsFrame) : Bool :=
  df.hasProblemCol && df.hasSolutionCol && (ps_filtered df.rows).length == 0

/-- Concrete input of the classification-code split example of the
specification. -/
def c1input : Str := "A01B,1,00,B02C3/00".toList

/-- Helper: the sum of a constant-valued map is the length times the
constant. -/
theorem sum_map_const_nat {α : Type} (l : List α) (k : Nat) :
    (l.map (fun _ => k)).sum = l.length * k := by
  induction l with
  | nil => simp
  | cons a t ih => simp [ih, Nat.succ_mul, Nat.add_comm]

/-- Helper: length of the joint expansion of one record is the product
of the two list lengths. -/
theorem length_expandJointRow (row : NormRecord) :
    (expandJointRow row).length =
      row.applicants_list.length * row.fi_list.length := by
  simp only [expandJointRow, List.length_flatMap, Function.comp_def, List.length_map]
  exact sum_map_const_nat row.applicants_list row.fi_list.length

/-- C1.  The claim expects the digit-protected split of
"A01B,1,00,B02C3/00" to produce three pieces; on the code (the regex
",(?!\d)": split only at a comma not followed by a digit) the commas
before "1" and before "00" are protected, so the first piece keeps the
numeric sub-code attached and the result has two pieces, refuting the
claim at this concrete input. -/
theorem c1_counterexample :
    fiSplit c1input ≠
      ["A01B".toList, "1,00".toList, "B02C3/00".toList] := by
  decide

/-- C1 (amended).  For the input classification-code string
"A01B,1,00,B02C3/00", the code split (split on commas only when the
comma is not immediately followed by a digit, then drop empty or
whitespace-only pieces) yields exactly the list
["A01B,1,00", "B02C3/00"]. -/
theorem c1_amended :
    fiSplit c1input = ["A01B,1,00".toList, "B02C3/00".toList] := by
  decide

/-- C2.  For every batch of normalized records, the applicant-exploded
table has exactly the sum over records of the applicants_list lengths,
the code-exploded table the sum of the fi_list lengths, and the
joint-exploded table the sum of the products. -/
theorem c2_exploded_row_counts (df : List NormRecord) :
    (expand_data df).1.length = (df.map (fun r => r.applicants_list.length)).sum
  ∧ (expand_data df).2.1.length = (df.map (fun r => r.fi_list.length)).sum
  ∧ (expand_data df).2.2.length =
      (df.map (fun r => r.applicants_list.length * r.fi_list.length)).sum := by
  refine ⟨?_, ?_, ?_⟩
  · simp [expand_data, List.length_flatMap, Function.comp_def, expandApplicantsRow]
  · simp [expand_data, List.length_flatMap, Function.comp_def, expandFiRow]
  · simp only [expand_data, List.length_flatMap, Function.comp_def]
    exact congrArg List.sum (List.map_congr_left (fun r _ => length_expandJointRow r))

/-- Helper: the residual count of dashboard.py lines 128 and 134 equals
the sum of the counts beyond position 10, with or without the length
guard. -/
theorem othersSum_eq_drop_sum {K : Type} (counts : List (K × Nat)) :
    othersSum counts = ((counts.drop 10).map (fun p => p.2)).sum := by
  by_cases h : counts.length > 10
  · simp [othersSum, h]
  · have hd : counts.drop 10 = [] := List.drop_eq_nil_of_le (by omega)
    simp [othersSum, h, hd]

/-- Helper: the total count of a frequency table splits into the top-10
part and the residual part. -/
theorem counts_sum_split {K : Type} (counts : List (K × Nat)) :
    (counts.map (fun p => p.2)).sum =
      ((counts.take 10).map (fun p => p.2)).sum
        + ((counts.drop 10).map (fun p => p.2)).sum := by
  conv_lhs => rw [← List.take_append_drop 10 counts]
  simp

/-- Helper: behaviour of the share table with the residual row, for an
arbitrary frequency table: total preserved, residual row present exactly
when the counts beyond the top 10 are positive, and then its value is
the total minus the top-10 sum. -/
theorem withOthers_spec {K : Type} (o : K) (counts : List (K × Nat)) :
    ((withOthers o counts).map (fun p => p.2)).sum = (counts.map (fun p => p.2)).sum
  ∧ (withOthers o counts ≠ topHead counts ↔
      0 < ((counts.drop 10).map (fun p => p.2)).sum)
  ∧ (0 < ((counts.drop 10).map (fun p => p.2)).sum →
      withOthers o counts = topHead counts ++
        [(o, (counts.map (fun p => p.2)).sum
              - ((counts.take 10).map (fun p => p.2)).sum)]) := by
  have hsplit := counts_sum_split counts
  have hos := othersSum_eq_drop_sum counts
  by_cases hpos : 0 < ((counts.drop 10).map (fun p => p.2)).sum
  · have hne : othersSum counts > 0 := by omega
    have hw : withOthers o counts = topHead counts ++ [(o, othersSum counts)] := by
      unfold withOthers
      rw [if_pos hne]
    refine ⟨?_, ⟨fun _ => hpos, fun _ => ?_⟩, fun _ => ?_⟩
    · rw [hw]
      simp only [List.map_append, List.sum_append, List.map_cons, List.map_nil,
        List.sum_cons, List.sum_nil, topHead]
      omega
    · rw [hw]
      intro heq
      have hlen := congrArg List.length heq
      simp only [List.length_append, List.length_cons, List.length_nil] at hlen
      omega
    · have hval : (counts.map (fun p => p.2)).sum
          - ((counts.take 10).map (fun p => p.2)).sum
          = othersSum counts := by omega
      rw [hw, hval]
  · have h0 : othersSum counts = 0 := by omega
    have hw : withOthers o counts = topHead counts := by
      unfold withOthers
      rw [if_neg (by omega)]
    refine ⟨?_, ?_, fun h => absurd h hpos⟩
    · rw [hw]
      simp only [topHead]
      omega
    · rw [hw]
      exact ⟨fun h => absurd rfl h, fun h => absurd h hpos⟩

/-- C3.  In the aggregate output, the two share tables are the top-10
tables with the synthetic residual row appended exactly when the counts
beyond the top 10 are positive; when present the residual equals the
total minus the top-10 sum; the share-table total equals the full
frequency-table total; and the plain top-10 tables (the unmodified first
ten rows) are retained separately. -/
theorem c3_top_with_others (df df_applicants df_fi df_applicants_fi : List NormRecord)
    (agg : AggResult)
    (hagg : agg = aggregate_data df df_applicants df_fi df_applicants_fi) :
    agg.top_applicants = topHead agg.applicant_counts
  ∧ agg.top_fi = topHead agg.fi_counts
  ∧ (agg.top_applicant_with_others.map (fun p => p.2)).sum
      = (agg.applicant_counts.map (fun p => p.2)).sum
  ∧ (agg.top_applicant_with_others ≠ agg.top_applicants ↔
      0 < ((agg.applicant_counts.drop 10).map (fun p => p.2)).sum)
  ∧ (0 < ((agg.applicant_counts.drop 10).map (fun p => p.2)).sum →
      agg.top_applicant_with_others = agg.top_applicants ++
        [(othersName, (agg.applicant_counts.map (fun p => p.2)).sum
              - ((agg.applicant_counts.take 10).map (fun p => p.2)).sum)])
  ∧ (agg.top_fi_with_others.map (fun p => p.2)).sum
      = (agg.fi_counts.map (fun p => p.2)).sum
  ∧ (agg.top_fi_with_others ≠ agg.top_fi ↔
      0 < ((agg.fi_counts.drop 10).map (fun p => p.2)).sum)
  ∧ (0 < ((agg.fi_counts.drop 10).map (fun p => p.2)).sum →
      agg.top_fi_with_others = agg.top_fi ++
        [(othersName, (agg.fi_counts.map (fun p => p.2)).sum
              - ((agg.fi_counts.take 10).map (fun p => p.2)).sum)]) := by
  subst hagg
  have ha := withOthers_spec othersName
    ((aggregate_data df df_applicants df_fi df_applicants_fi).applicant_counts)
  have hf := withOthers_spec othersName
    ((aggregate_data df df_applicants df_fi df_applicants_fi).fi_counts)
  exact ⟨rfl, rfl, ha.1, ha.2.1, ha.2.2, hf.1, hf.2.1, hf.2.2⟩

/-- Witness record maker for the residual-row example batch. -/
def c3rec (c : Char) : NormRecord :=
  { appDate := ⟨2020⟩
    applicant := [c]
    fi := some ['A']
    problem := none
    solution := none
    year := 2020
    applicants_list := [[c]]
    fi_list := [['A']] }

/-- Applicant-exploded example batch with twelve distinct applicants, so
that the counts beyond the top 10 are positive. -/
def c3df : List NormRecord :=
  ['A', 'B', 'C', 'D', 'E', 'F', 'G', 'H', 'I', 'J', 'K', 'L'].map c3rec

/-- C3 witness: on the twelve-applicant batch the residual is positive
and the share table is the top-10 table plus the residual row. -/
theorem c3_witness :
    0 < (((aggregate_data [] c3df [] []).applicant_counts.drop 10).map (fun p => p.2)).sum
  ∧ (aggregate_data [] c3df [] []).top_applicant_with_others
      = (aggregate_data [] c3df [] []).top_applicants ++
        [(othersName,
          ((aggregate_data [] c3df [] []).applicant_counts.map (fun p => p.2)).sum
            - (((aggregate_data [] c3df [] []).applicant_counts.take 10).map
                (fun p => p.2)).sum)] :=
  ⟨by decide, (c3_top_with_others [] c3df [] [] _ rfl).2.2.2.2.1 (by decide)⟩

/-- Helper: when the images of a list under f are pairwise distinct, at
most one element maps to any given value. -/
theorem countP_le_one_of_nodup_map {α β : Type} [DecidableEq β] (f : α → β)
    (l : List α) (h : (l.map f).Nodup) (a : β) :
    l.countP (fun x => decide (f x = a)) ≤ 1 := by
  induction l with
  | nil => simp
  | cons x t ih =>
    simp only [List.map_cons, List.nodup_cons] at h
    by_cases hx : f x = a
    · have h0 : t.countP (fun y => decide (f y = a)) = 0 := by
        rw [List.countP_eq_zero]
        intro y hy hdy
        have hya : f y = a := of_decide_eq_true hdy
        exact h.1 (List.mem_map.mpr ⟨y, hy, by rw [hya, hx]⟩)
      simp [List.countP_cons, h0, hx]
    · have hle := ih h.2
      simp only [List.countP_cons, hx, decide_eq_true_eq, if_false]
      omega

/-- Helper: on a cross table with at most one entry per key pair, one
reindexed cell of the pivot table equals the direct lookup-or-0. -/
theorem pivot_cell_eq_lookup {R C : Type} [DecidableEq R] [DecidableEq C]
    (data : List (R × C × Nat)) (hU : (data.map keyPair).Nodup) (r : R) (c : C) :
    (if r ∈ (data.map (fun t => t.1)).dedup ∧ c ∈ (data.map (fun t => t.2.1)).dedup
      then pivotCell data r c else 0) = crossLookup data r c := by
  cases hfind : data.find? (fun t => decide (t.1 = r) && decide (t.2.1 = c)) with
  | none =>
    have hall := List.find?_eq_none.mp hfind
    have hfilter : data.filter (fun t => decide (t.1 = r) && decide (t.2.1 = c)) = [] :=
      List.filter_eq_nil_iff.mpr hall
    have hcell : pivotCell data r c = 0 := by
      simp [pivotCell, hfilter]
    rw [crossLookup, hfind]
    by_cases hmem : r ∈ (data.map (fun t => t.1)).dedup ∧ c ∈ (data.map (fun t => t.2.1)).dedup
    · rw [if_pos hmem, hcell]
    · rw [if_neg hmem]
  | some t =>
    have hpt := List.find?_some hfind
    have htmem := List.mem_of_find?_eq_some hfind
    have htr : t.1 = r := by
      have := Bool.and_elim_left hpt
      exact of_decide_eq_true this
    have htc : t.2.1 = c := by
      have := Bool.and_elim_right hpt
      exact of_decide_eq_true this
    have hrmem : r ∈ (data.map (fun t => t.1)).dedup :=
      List.mem_dedup.mpr (List.mem_map.mpr ⟨t, htmem, htr⟩)
    have hcmem : c ∈ (data.map (fun t => t.2.1)).dedup :=
      List.mem_dedup.mpr (List.mem_map.mpr ⟨t, htmem, htc⟩)
    have hlen : (data.filter (fun t => decide (t.1 = r) && decide (t.2.1 = c))).length ≤ 1 := by
      rw [← List.countP_eq_length_filter]
      have hle := countP_le_one_of_nodup_map keyPair data hU (r, c)
      have heq : data.countP (fun t => decide (keyPair t = (r, c)))
          = data.countP (fun t => decide (t.1 = r) && decide (t.2.1 = c)) :=
        List.countP_congr (fun x _ => by simp [keyPair, Prod.ext_iff])
      rw [← heq]
      exact hle
    have htf : t ∈ data.filter (fun t => decide (t.1 = r) && decide (t.2.1 = c)) :=
      List.mem_filter.mpr ⟨htmem, hpt⟩
    have hfilter : data.filter (fun t => decide (t.1 = r) && decide (t.2.1 = c)) = [t] := by
      cases hf : data.filter (fun t => decide (t.1 = r) && decide (t.2.1 = c)) with
      | nil =>
        rw [hf] at htf
        cases htf
      | cons x xs =>
        cases xs with
        | nil =>
          rw [hf] at htf
          have : t = x := by
            cases htf with
            | head => rfl
            | tail _ h => cases h
          rw [this]
        | cons y ys =>
          rw [hf] at hlen
          simp at hlen
    have hcell : pivotCell data r c = t.2.2 := by
      simp [pivotCell, hfilter]
    rw [crossLookup, hfind, if_pos ⟨hrmem, hcmem⟩, hcell]

/-- C4.  For every cross table with at most one entry per key pair and
caller-supplied orderings, create_heatmap_data returns a matrix of shape
exactly len(rows) by len(cols), in exactly the order of the supplied
sequences, whose cell (r, c) equals the cross-table value when present
and 0 otherwise, even for keys absent from the cross table. -/
theorem c4_heatmap_matrix {R C : Type} [DecidableEq R] [DecidableEq C]
    (data : List (R × C × Nat)) (row_items : List R) (col_items : List C)
    (hU : (data.map keyPair).Nodup) :
    (create_heatmap_data data row_items col_items).length = row_items.length
  ∧ (∀ row ∈ create_heatmap_data data row_items col_items, row.length = col_items.length)
  ∧ create_heatmap_data data row_items col_items
      = row_items.map (fun r => col_items.map (fun c => crossLookup data r c)) := by
  refine ⟨by simp [create_heatmap_data], ?_, ?_⟩
  · intro row hrow
    rcases List.mem_map.mp hrow with ⟨r, _, hr⟩
    rw [← hr]
    simp
  · unfold create_heatmap_data
    refine List.map_congr_left (fun r _ => List.map_congr_left (fun c _ => ?_))
    exact pivot_cell_eq_lookup data hU r c

/-- Concrete cross table for the heatmap witness: two distinct key
pairs. -/
def c4data : List (Str × Int × Nat) :=
  [(['X'], 2020, 3), (['Y'], 2021, 5)]

/-- Row ordering for the heatmap witness; the second key is absent from
the cross table. -/
def c4rows : List Str := [['Y'], ['Z'], ['X']]

/-- Column ordering for the heatmap witness; 2019 is absent from the
cross table. -/
def c4cols : List Int := [2019, 2020, 2021]

/-- C4 witness: the uniqueness hypothesis holds on the concrete cross
table and the matrix equals the direct lookup grid in the supplied
order. -/
theorem c4_witness :
    (c4data.map keyPair).Nodup
  ∧ create_heatmap_data c4data c4rows c4cols
      = c4rows.map (fun r => c4cols.map (fun c => crossLookup c4data r c)) :=
  ⟨by decide, (c4_heatmap_matrix c4data c4rows c4cols (by decide)).2.2⟩

/-- C5.  The year-frequency table of the aggregate output is sorted
ascending by year (not by count), for every input batch. -/
theorem c5_year_counts_sorted_by_year (df df_applicants df_fi df_applicants_fi : List NormRecord) :
    ((aggregate_data df df_applicants df_fi df_applicants_fi).year_counts).Pairwise
      (fun a b => a.1 ≤ b.1) := by
  haveI : IsTotal (Int × Nat) (fun a b : Int × Nat => a.1 ≤ b.1) :=
    ⟨fun a b => Int.le_total a.1 b.1⟩
  haveI : IsTrans (Int × Nat) (fun a b : Int × Nat => a.1 ≤ b.1) :=
    ⟨fun _ _ _ hab hbc => le_trans hab hbc⟩
  show (List.insertionSort (fun a b : Int × Nat => a.1 ≤ b.1)
      (value_counts (df.map (fun r => r.year)))).Pairwise (fun a b => a.1 ≤ b.1)
  exact List.sorted_insertionSort (fun a b : Int × Nat => a.1 ≤ b.1)
    (value_counts (df.map (fun r => r.year)))

/-- C6.  Every row of the year-by-applicant and year-by-FI tables of the
aggregate output has its entity in the corresponding unmodified top-10
list, and every grouped row whose entity is in that list is retained. -/
theorem c6_year_top_membership (df df_applicants df_fi df_applicants_fi : List NormRecord) :
    (∀ g ∈ (aggregate_data df df_applicants df_fi df_applicants_fi).year_top_applicant,
        g.1.2 ∈ (aggregate_data df df_applicants df_fi df_applicants_fi).top10_applicants)
  ∧ (∀ g ∈ year_applicant_group df_applicants,
        g.1.2 ∈ (aggregate_data df df_applicants df_fi df_applicants_fi).top10_applicants →
        g ∈ (aggregate_data df df_applicants df_fi df_applicants_fi).year_top_applicant)
  ∧ (∀ g ∈ (aggregate_data df df_applicants df_fi df_applicants_fi).year_top_fi,
        g.1.2 ∈ (aggregate_data df df_applicants df_fi df_applicants_fi).top10_fi)
  ∧ (∀ g ∈ year_fi_group df_fi,
        g.1.2 ∈ (aggregate_data df df_applicants df_fi df_applicants_fi).top10_fi →
        g ∈ (aggregate_data df df_applicants df_fi df_applicants_fi).year_top_fi) := by
  have ha : (aggregate_data df df_applicants df_fi df_applicants_fi).year_top_applicant
      = (year_applicant_group df_applicants).filter
        (fun g => decide (g.1.2 ∈
          (aggregate_data df df_applicants df_fi df_applicants_fi).top10_applicants)) := rfl
  have hf : (aggregate_data df df_applicants df_fi df_applicants_fi).year_top_fi
      = (year_fi_group df_fi).filter
        (fun g => decide (g.1.2 ∈
          (aggregate_data df df_applicants df_fi df_applicants_fi).top10_fi)) := rfl
  refine ⟨?_, ?_, ?_, ?_⟩
  · intro g hg
    rw [ha] at hg
    exact of_decide_eq_true (List.mem_filter.mp hg).2
  · intro g hg hmem
    rw [ha]
    exact List.mem_filter.mpr ⟨hg, decide_eq_true hmem⟩
  · intro g hg
    rw [hf] at hg
    exact of_decide_eq_true (List.mem_filter.mp hg).2
  · intro g hg hmem
    rw [hf]
    exact List.mem_filter.mpr ⟨hg, decide_eq_true hmem⟩

/-- Applicant-exploded example batch with a single applicant, for the
year-by-entity retention witness. -/
def c6df : List NormRecord := [c3rec 'A']

/-- C6 witness: on the one-applicant batch, the grouped row for the
top-10 applicant is retained in the year-by-applicant table. -/
theorem c6_witness :
    (((2020 : Int), (['A'] : Str)), 1) ∈
      (aggregate_data [] c6df [] []).year_top_applicant :=
  (c6_year_top_membership [] c6df [] []).2.1 (((2020 : Int), (['A'] : Str)), 1)
    (by decide) (by decide)

/-- C7.  A grouped (applicant, FI) row is retained in the
applicant-by-FI output exactly when its applicant is in the top-10
applicant list and its FI is in the top-10 FI list: an intersection
filter, not a union. -/
theorem c7_intersection_filter (df df_applicants df_fi df_applicants_fi : List NormRecord)
    (g : (Str × Str) × Nat) :
    g ∈ (aggregate_data df df_applicants df_fi df_applicants_fi).top_applicant_top_fi
  ↔ (g ∈ applicant_fi_group df_applicants_fi
      ∧ g.1.1 ∈ (aggregate_data df df_applicants df_fi df_applicants_fi).top10_applicants
      ∧ g.1.2 ∈ (aggregate_data df df_applicants df_fi df_applicants_fi).top10_fi) := by
  have h : (aggregate_data df df_applicants df_fi df_applicants_fi).top_applicant_top_fi
      = (applicant_fi_group df_applicants_fi).filter
        (fun g =>
          decide (g.1.1 ∈
            (aggregate_data df df_applicants df_fi df_applicants_fi).top10_applicants) &&
          decide (g.1.2 ∈
            (aggregate_data df df_applicants df_fi df_applicants_fi).top10_fi)) := rfl
  rw [h, List.mem_filter]
  constructor
  · rintro ⟨hmem, hb⟩
    simp only [Bool.and_eq_true, decide_eq_true_eq] at hb
    exact ⟨hmem, hb.1, hb.2⟩
  · rintro ⟨hmem, h1, h2⟩
    exact ⟨hmem, by simp [h1, h2]⟩

/-- Record for the intersection-filter witness: one applicant and one
FI code, so both top-10 membership tests succeed. -/
def c7row : NormRecord :=
  { appDate := ⟨2020⟩
    applicant := ['A']
    fi := some ['F']
    problem := none
    solution := none
    year := 2020
    applicants_list := [['A']]
    fi_list := [['F']] }

/-- C7 witness: the grouped row whose applicant and FI are both top-10
is retained. -/
theorem c7_witness :
    (((['A'] : Str), (['F'] : Str)), 1) ∈
      (aggregate_data [] [c7row] [c7row] [c7row]).top_applicant_top_fi :=
  (c7_intersection_filter [] [c7row] [c7row] [c7row] (((['A'] : Str), (['F'] : Str)), 1)).mpr
    ⟨by decide, by decide, by decide⟩

/-- Row whose problem category is populated but whose solution category
is not, so the filtered frame of the secondary analyzer is empty. -/
def c8row : NormRecord :=
  { appDate := ⟨2021⟩
    applicant := ['X']
    fi := some ['A']
    problem := some ['P']
    solution := none
    year := 2021
    applicants_list := [['X']]
    fi_list := [['A']] }

/-- Frame in which both category columns are present but no row has both
populated. -/
def c8frame : PsFrame :=
  { hasProblemCol := true, hasSolutionCol := true, rows := [c8row] }

/-- C8.  The claim expects a non-absent result with total_records = 0
when both category columns exist but no row has both populated; on the
code (dashboard.py lines 386-388) that case returns None, an absent
result, refuting the claim at this concrete input. -/
theorem c8_counterexample :
    analyze_problem_solution_data c8frame none = none := by
  rfl

/-- C8 (amended).  The secondary analyzer returns an absent result, with
a warning, when both category columns exist but no row has both
populated (not a crash, but also not a non-absent result); it returns an
absent result without the warning when either category column is
missing; and whenever it returns a non-absent result, total_records
equals the number of rows with both categories populated and is
positive. -/
theorem c8_amended (df : PsFrame) (dfa : Option (List NormRecord)) :
    ((df.hasProblemCol = false ∨ df.hasSolutionCol = false) →
        analyze_problem_solution_data df dfa = none ∧ psWarningEmitted df = false)
  ∧ (df.hasProblemCol = true → df.hasSolutionCol = true →
      (ps_filtered df.rows).length = 0 →
        analyze_problem_solution_data df dfa = none ∧ psWarningEmitted df = true)
  ∧ (∀ res, analyze_problem_solution_data df dfa = some res →
        res.total_records = (ps_filtered df.rows).length ∧ 0 < res.total_records) := by
  refine ⟨?_, ?_, ?_⟩
  · intro h
    have hb : (df.hasProblemCol && df.hasSolutionCol) = false := by
      rcases h with h | h <;> simp [h]
    constructor
    · unfold analyze_problem_solution_data
      rw [hb]
      rfl
    · unfold psWarningEmitted
      rw [hb]
      rfl
  · intro hp hs hlen
    constructor
    · unfold analyze_problem_solution_data
      rw [hp, hs]
      simp [hlen]
    · unfold psWarningEmitted
      rw [hp, hs]
      simp [hlen]
  · intro res hres
    by_cases hcols : (df.hasProblemCol && df.hasSolutionCol) = true
    · by_cases hlen : (ps_filtered df.rows).length = 0
      · simp [analyze_problem_solution_data, hcols, hlen] at hres
      · simp only [analyze_problem_solution_data, hcols, Bool.not_true, Bool.false_eq_true,
          if_false, hlen, if_neg hlen, Option.some.injEq] at hres
        subst hres
        refine ⟨rfl, ?_⟩
        show 0 < (ps_filtered df.rows).length
        omega
    · have hb : (df.hasProblemCol && df.hasSolutionCol) = false := by
        revert hcols
        cases df.hasProblemCol && df.hasSolutionCol <;> simp
      simp [analyze_problem_solution_data, hb] at hres

/-- C8 witness: on the concrete frame with both columns present and no
fully populated row, the analyzer yields the absent result and the
warning. -/
theorem c8_witness :
    analyze_problem_solution_data c8frame none = none ∧ psWarningEmitted c8frame = true :=
  (c8_amended c8frame none).2.1 rfl rfl (by decide)

/-- Raw record whose applicant string carries a decorative marker. -/
def c9raw : RawRecord :=
  { appDate := ⟨2020⟩
    applicant := ['▲', 'X']
    fi := some ['A']
    problem := none
    solution := none }

/-- C9.  The claim expects every original column, including the raw
applicant string, to be preserved by the normalizer; on the code
(dashboard.py line 49 assigns the marker-stripped string back to the
applicant column) the applicant column of this concrete record changes
from the marked to the stripped string, refuting the claim. -/
theorem c9_counterexample :
    (preprocess_data [c9raw]).map (fun r => r.applicant) ≠ [c9raw.applicant] := by
  decide

/-- C9 (amended).  The normalizer preserves every original column except
the applicant column, which is overwritten with its marker-stripped
value (and is therefore preserved exactly when the raw string carries no
marker); the new columns year, applicants_list and fi_list are the only
additions. -/
theorem c9_amended (r : RawRecord) :
    (preprocessRow r).appDate = r.appDate
  ∧ (preprocessRow r).fi = r.fi
  ∧ (preprocessRow r).problem = r.problem
  ∧ (preprocessRow r).solution = r.solution
  ∧ (preprocessRow r).applicant = stripMarkers r.applicant
  ∧ ((∀ c ∈ r.applicant, ¬(c = '▲' ∨ c = '▼')) →
      (preprocessRow r).applicant = r.applicant) := by
  refine ⟨rfl, rfl, rfl, rfl, rfl, ?_⟩
  intro h
  show stripMarkers r.applicant = r.applicant
  unfold stripMarkers
  rw [List.filter_eq_self]
  intro a ha
  have hne := h a ha
  simp only [not_or] at hne
  simp [hne.1, hne.2]

/-- Marker-free raw record for the column-preservation witness. -/
def c9clean : RawRecord :=
  { appDate := ⟨2020⟩
    applicant := ['X']
    fi := none
    problem := none
    solution := none }

/-- C9 witness: a marker-free applicant string is preserved by the
normalizer. -/
theorem c9_witness : (preprocessRow c9clean).applicant = c9clean.applicant :=
  (c9_amended c9clean).2.2.2.2.2 (by decide)

/-- Helper: every character of every piece produced by the splitter
comes from the accumulator or from the input. -/
theorem splitAux_chars (p : Char → List Char → Bool) (s : List Char) :
    ∀ acc piece, piece ∈ splitAux p s acc → ∀ c ∈ piece, c ∈ acc ∨ c ∈ s := by
  induction s with
  | nil =>
    intro acc piece hp c hc
    simp only [splitAux, List.mem_singleton] at hp
    subst hp
    exact Or.inl (List.mem_reverse.mp hc)
  | cons a rest ih =>
    intro acc piece hp c hc
    simp only [splitAux] at hp
    by_cases hcut : p a rest
    · rw [if_pos hcut] at hp
      rcases List.mem_cons.mp hp with hp | hp
      · subst hp
        exact Or.inl (List.mem_reverse.mp hc)
      · rcases ih [] piece hp c hc with h0 | h0
        · cases h0
        · exact Or.inr (List.mem_cons_of_mem a h0)
    · rw [if_neg hcut] at hp
      rcases ih (a :: acc) piece hp c hc with h0 | h0
      · rcases List.mem_cons.mp h0 with h1 | h1
        · exact Or.inr (h1 ▸ List.mem_cons_self a rest)
        · exact Or.inl h1
      · exact Or.inr (List.mem_cons_of_mem a h0)

/-- Helper: a whitespace-only string trims to the empty string. -/
theorem trim_eq_nil_of_ws (s : Str) (h : ∀ c ∈ s, c.isWhitespace) : trim s = [] := by
  unfold trim
  rw [List.dropWhile_eq_nil_iff.mpr h]
  rfl

/-- Helper: the FI split of an empty or whitespace-only string is the
empty list (every piece of the split is whitespace-only, so the
non-empty filter drops them all). -/
theorem fiSplit_eq_nil_of_ws (s : Str) (h : ∀ c ∈ s, c.isWhitespace) : fiSplit s = [] := by
  unfold fiSplit
  rw [List.filter_eq_nil_iff]
  intro piece hpiece
  have hchars : ∀ c ∈ piece, c.isWhitespace := by
    intro c hc
    rcases splitAux_chars _ s [] piece hpiece c hc with h0 | h0
    · cases h0
    · exact h c h0
  simp [trim_eq_nil_of_ws piece hchars]

/-- Helper: applicant expansion of a row whose applicants_list is the
singleton empty string is one row with the empty applicant. -/
theorem expandApplicantsRow_single_empty (row : NormRecord)
    (h : row.applicants_list = [[]]) :
    expandApplicantsRow row = [{ row with applicant := [] }] := by
  obtain ⟨d, ap, f0, pr, so, y, al, fl⟩ := row
  have h2 : al = [[]] := h
  subst h2
  rfl

/-- Helper: FI expansion of a row with an empty fi_list is empty. -/
theorem expandFiRow_nil (row : NormRecord) (h : row.fi_list = []) :
    expandFiRow row = [] := by
  obtain ⟨d, ap, f0, pr, so, y, al, fl⟩ := row
  have h2 : fl = [] := h
  subst h2
  rfl

/-- C10.  A record whose applicant field is empty after marker stripping
produces exactly one applicant-exploded row, whose applicant value is
the empty string, whereas a record whose FI field is empty or
whitespace-only produces zero code-exploded rows. -/
theorem c10_empty_field_expansion (r : RawRecord) :
    (stripMarkers r.applicant = [] →
      expandApplicantsRow (preprocessRow r) = [{ preprocessRow r with applicant := [] }])
  ∧ ((∀ c ∈ r.fi.getD [], c.isWhitespace) →
      expandFiRow (preprocessRow r) = []) := by
  constructor
  · intro h
    have hlist : (preprocessRow r).applicants_list = [[]] := by
      show splitComma (stripMarkers r.applicant) = [[]]
      rw [h]
      rfl
    exact expandApplicantsRow_single_empty (preprocessRow r) hlist
  · intro h
    have hlist : (preprocessRow r).fi_list = [] := by
      show fiSplit (r.fi.getD []) = []
      exact fiSplit_eq_nil_of_ws _ h
    exact expandFiRow_nil (preprocessRow r) hlist

/-- Raw record with a marker-only applicant cell and a whitespace-only
FI cell. -/
def c10raw : RawRecord :=
  { appDate := ⟨2020⟩
    applicant := ['▲']
    fi := some [' ']
    problem := none
    solution := none }

/-- C10 witness: the marker-only applicant yields exactly one exploded
row with the empty-string applicant, and the whitespace-only FI yields
zero exploded rows. -/
theorem c10_witness :
    expandApplicantsRow (preprocessRow c10raw) = [{ preprocessRow c10raw with applicant := [] }]
  ∧ expandFiRow (preprocessRow c10raw) = [] :=
  ⟨(c10_empty_field_expansion c10raw).1 (by decide),
   (c10_empty_field_expansion c10raw).2 (by decide)⟩
